import Mathlib

/-!
Shallow embedding of the scan-buffering and file-rotation/upload pipeline of
`barcode_scanner.py` (class `BarcodeScanner`).  Python strings are modelled as
`List Char`, the daily Excel workbook as a list of rows, the local filesystem
as an association list from paths to file contents, and the external Box store
as an oracle environment.  Every definition is translated from the source file;
the single exception, marked in its doc comment, restates the claim's own
wording for a refinement comparison.
-/

/-- Python strings are modelled as lists of characters. -/
abbrev Str := List Char

/-- Whitespace test used by Python's `str.strip()` (ASCII fragment). -/
def pyIsSpace (c : Char) : Bool :=
  c = ' ' ∨ c = '\t' ∨ c = '\n' ∨ c = '\r'

/-- Python `str.strip()`: drop leading and trailing whitespace. -/
def pyStrip (s : Str) : Str :=
  ((s.dropWhile pyIsSpace).reverse.dropWhile pyIsSpace).reverse

/-- Fuelled worker for `pyReplace`; the fuel starts at the length of the
string, which suffices since every step consumes at least one character. -/
def pyReplaceFuel (pat rep : Str) : Nat → Str → Str
  | 0, s => s
  | _ + 1, [] => []
  | fuel + 1, c :: rest =>
    if pat ≠ [] ∧ pat.isPrefixOf (c :: rest) then
      rep ++ pyReplaceFuel pat rep fuel ((c :: rest).drop pat.length)
    else
      c :: pyReplaceFuel pat rep fuel rest

/-- Python `str.replace(pat, rep)`: replace every non-overlapping occurrence
of `pat`, scanning left to right. -/
def pyReplace (pat rep s : Str) : Str :=
  pyReplaceFuel pat rep s.length s

/-- `os.path` basename as computed by `pathlib.Path.name`: the characters
after the last `/`. -/
def pyBasename (p : Str) : Str :=
  p.foldl (fun acc c => if c = '/' then [] else acc ++ [c]) []

/-- The reserved key name `"space"` emitted by the keyboard hook. -/
def spaceKey : Str := "space".data

/-- A literal space character, the replacement for the `"space"` key. -/
def spaceChar : Str := " ".data

/-- The terminator key name `"enter"`. -/
def enterKey : Str := "enter".data

/-- Status tag `"SUCCESS"`. -/
def statusSuccess : Str := "SUCCESS".data

/-- Status tag `"INVALID"`. -/
def statusInvalid : Str := "INVALID".data

/-- Status tag `"TIMEOUT"`. -/
def statusTimeout : Str := "TIMEOUT".data

/-- Status tag `"RECOVERED"`. -/
def statusRecovered : Str := "RECOVERED".data

/-- `BarcodeScanner._validate_barcode`: non-empty and at least 3 characters
after stripping. -/
def validateBarcode (barcode : Str) : Bool :=
  if barcode = [] ∨ (pyStrip barcode).length = 0 then false
  else if (pyStrip barcode).length < 3 then false
  else true

/-- The barcode built on `"enter"` in `_on_barcode_input`:
`"".join(buffer).replace("space", " ").strip()`. -/
def finalizeBarcode (buf : List Str) : Str :=
  pyStrip (pyReplace spaceKey spaceChar buf.flatten)

/-- A keyboard event as seen by `_on_barcode_input`: the key name and whether
it is a key-down event. -/
structure KeyEvent where
  name : Str
  isDown : Bool
  deriving DecidableEq

/-- Tokenizer-level state of `BarcodeScanner`: the running flag, the keystroke
buffer `barcode_buffer`, `last_input_time`, and the sequence of
`(barcode, status)` pairs passed to `_log_barcode` so far. -/
structure TokState where
  running : Bool
  buffer : List Str
  lastInputTime : Option Nat
  log : List (Str × Str)
  deriving DecidableEq

/-- `BarcodeScanner._on_barcode_input`, handling one key event at time `now`. -/
def onBarcodeInput (ev : KeyEvent) (now : Nat) (s : TokState) : TokState :=
  if !s.running || !ev.isDown then s
  else
    let s := { s with lastInputTime := some now }
    if ev.name = enterKey then
      if s.buffer ≠ [] then
        let barcode := finalizeBarcode s.buffer
        let status := if validateBarcode barcode then statusSuccess else statusInvalid
        { s with log := s.log ++ [(barcode, status)], buffer := [], lastInputTime := none }
      else s
    else if ev.name.length = 1 ∨ ev.name = spaceKey then
      let buf := s.buffer ++ [ev.name]
      if buf.length > 100 then
        { s with buffer := [], lastInputTime := none }
      else
        { s with buffer := buf }
    else s

/-- `BarcodeScanner._check_barcode_timeout`, polled at time `now` with
threshold `barcodeTimeout` (`config.barcode_timeout`). -/
def checkBarcodeTimeout (barcodeTimeout : Nat) (now : Nat) (s : TokState) : TokState :=
  match s.lastInputTime with
  | some t =>
    if s.buffer ≠ [] ∧ now - t > barcodeTimeout then
      { s with log := s.log ++ [(s.buffer.flatten, statusTimeout)],
               buffer := [], lastInputTime := none }
    else s
  | none => s

/-- Feed a sequence of timed key events through `_on_barcode_input`. -/
def runEvents (evs : List (KeyEvent × Nat)) (s : TokState) : TokState :=
  evs.foldl (fun st e => onBarcodeInput e.1 e.2 st) s

/-- The scanner's tokenizer state right after `run()` starts: running, empty
buffer, no last-input time, nothing logged. -/
def initTokState : TokState :=
  { running := true, buffer := [], lastInputTime := none, log := [] }

/-- A second definition following the words of claim C1 (refinement
comparison): each buffered reserved `"space"` key is mapped to a literal
space character, the key names are concatenated in order, and the result is
stripped of surrounding whitespace. -/
def specBarcodeOfKeys (keys : List Str) : Str :=
  pyStrip ((keys.map (fun k => if k = spaceKey then spaceChar else k)).flatten)

/-- The key names of the C1 counterexample: the characters `s p a c e X Y Z`
typed as eight individual single-character keys. -/
def cexKeys : List Str :=
  [['s'], ['p'], ['a'], ['c'], ['e'], ['X'], ['Y'], ['Z']]

/-- The C1 counterexample events: the eight character keys then `"enter"`,
all key-down. -/
def cexEvents : List (KeyEvent × Nat) :=
  cexKeys.map (fun k => (⟨k, true⟩, 0)) ++ [(⟨enterKey, true⟩, 0)]

/-- The buffered character events of the C1 counterexample run, reused as a
concrete witness input. -/
def cexCharEvents : List (KeyEvent × Nat) :=
  cexKeys.map (fun k => (⟨k, true⟩, 0))

/-- A state holding the single buffered key `a`, about to be finalized as the
too-short barcode `"a"`. -/
def shortBufState : TokState :=
  { running := true, buffer := [['a']], lastInputTime := some 0, log := [] }

/-- A tokenizer state whose buffer already holds 100 keys, one key short of
the overflow limit. -/
def fullBufState : TokState :=
  { running := true, buffer := List.replicate 100 ['a'], lastInputTime := some 0,
    log := [] }

/-- One spreadsheet row: barcode, timestamp, status. -/
abbrev Row := Str × Str × Str

/-- The fixed header row `["Barcode", "Timestamp", "Status"]`. -/
def headerRow : Row := ("Barcode".data, "Timestamp".data, "Status".data)

/-- Contents of a file on disk: either a workbook that `openpyxl` can load
(its rows, the header included when present), or contents on which
`load_workbook` raises. -/
inductive Sheet where
  | wb (rows : List Row) : Sheet
  | bad : Sheet
  deriving DecidableEq

/-- The local filesystem, as an association list from paths to contents. -/
abbrev FS := List (Str × Sheet)

/-- Look up the file at a path, `none` when the path does not exist. -/
def fsLookup : FS → Str → Option Sheet
  | [], _ => none
  | (p, f) :: rest, q => if p = q then some f else fsLookup rest q

/-- Delete the file at a path (`Path.unlink` / the source of a rename). -/
def fsRemove : FS → Str → FS
  | [], _ => []
  | (p, f) :: rest, q => if p = q then fsRemove rest q else (p, f) :: fsRemove rest q

/-- Write contents at a path, replacing whatever was there (`wb.save`). -/
def fsInsert (fs : FS) (p : Str) (f : Sheet) : FS :=
  (p, f) :: fsRemove fs p

/-- `BarcodeScanner._has_scan_data`: load the workbook and report
`ws.max_row > 1`; any failure (unreadable or missing file) counts as
"no data". -/
def hasScanData (fs : FS) (path : Str) : Bool :=
  match fsLookup fs path with
  | some (Sheet.wb rows) => rows.length > 1
  | _ => false

/-- File-level state of `BarcodeScanner`: the filesystem, `excel_path`,
`scan_count`, and the paths put on `upload_queue` (oldest first). -/
structure ScannerState where
  fs : FS
  excelPath : Str
  scanCount : Nat
  uploadQueue : List Str
  deriving DecidableEq

/-- The extension `".xlsx"`. -/
def xlsxExt : Str := ".xlsx".data

/-- The filename suffix `"_CORRUPTED_<ts>.xlsx"` spliced in by
`_handle_file_corruption`. -/
def corruptedSuffix (tsTag : Str) : Str :=
  "_CORRUPTED_".data ++ tsTag ++ xlsxExt

/-- The corruption-tagged name:
`str(excel_path).replace(".xlsx", f"_CORRUPTED_{ts}.xlsx")`. -/
def corruptedName (path : Str) (tsTag : Str) : Str :=
  pyReplace xlsxExt (corruptedSuffix tsTag) path

/-- `BarcodeScanner._handle_file_corruption`: rename the canonical file (when
it exists) to the corruption-tagged name, then create a fresh workbook at the
canonical path holding the header and one RECOVERED record with the
triggering barcode; `scan_count` becomes 1. -/
def handleFileCorruption (barcode now tsTag : Str) (st : ScannerState) : ScannerState :=
  let corruptedPath := corruptedName st.excelPath tsTag
  let fs1 :=
    match fsLookup st.fs st.excelPath with
    | some f => fsInsert (fsRemove st.fs st.excelPath) corruptedPath f
    | none => st.fs
  { st with
    fs := fsInsert fs1 st.excelPath (Sheet.wb [headerRow, (barcode, now, statusRecovered)]),
    scanCount := 1 }

/-- `BarcodeScanner._log_barcode`: load the workbook at `excel_path`, append
`[barcode, timestamp, status]` and save it; on any failure to open, parse or
save, fall into `_handle_file_corruption`.  The function is total: no
exception reaches the caller. -/
def logBarcode (barcode status now tsTag : Str) (st : ScannerState) : ScannerState :=
  match fsLookup st.fs st.excelPath with
  | some (Sheet.wb rows) =>
    { st with
      fs := fsInsert st.fs st.excelPath (Sheet.wb (rows ++ [(barcode, now, status)])),
      scanCount := st.scanCount + 1 }
  | _ => handleFileCorruption barcode now tsTag st

/-- Append a whole list of `(barcode, status, timestamp)` calls with
`_log_barcode`, in order. -/
def appendAll (inputs : List (Str × Str × Str)) (st : ScannerState) : ScannerState :=
  inputs.foldl (fun s i => logBarcode i.1 i.2.1 i.2.2 i.2.2 s) st

/-- `BarcodeScanner._initialize_excel` for the current date's canonical path
`todayPath`: create a header-only workbook when the path is absent
(`scan_count := 0`), otherwise load it and restore
`scan_count = max(0, max_row - 1)`; a load failure raises (the rotation
caller catches it and leaves the state as is). -/
def initializeExcel (todayPath : Str) (st : ScannerState) : ScannerState :=
  let st := { st with excelPath := todayPath }
  match fsLookup st.fs todayPath with
  | none =>
    { st with fs := fsInsert st.fs todayPath (Sheet.wb [headerRow]), scanCount := 0 }
  | some (Sheet.wb rows) => { st with scanCount := rows.length - 1 }
  | some Sheet.bad => st

/-- `BarcodeScanner._rotate_excel` with the canonical paths for today and
yesterday (computed in the source from `datetime.now()`): if the current file
exists, rename it to yesterday's path when it has data and that path is free
(skip with a warning when occupied), or delete it when it has no data; then
queue yesterday's file for upload if that path now exists; finally
re-initialize the current-day workbook. -/
def rotateExcel (todayPath yesterdayPath : Str) (st : ScannerState) : ScannerState :=
  let st1 :=
    if (fsLookup st.fs st.excelPath).isSome then
      if hasScanData st.fs st.excelPath then
        if (fsLookup st.fs yesterdayPath).isNone then
          match fsLookup st.fs st.excelPath with
          | some f =>
            { st with fs := fsInsert (fsRemove st.fs st.excelPath) yesterdayPath f }
          | none => st
        else st
      else { st with fs := fsRemove st.fs st.excelPath }
    else st
  let st2 :=
    if (fsLookup st1.fs yesterdayPath).isSome then
      { st1 with uploadQueue := st1.uploadQueue ++ [yesterdayPath] }
    else st1
  initializeExcel todayPath st2

/-- Result of `_upload_with_retries`: the returned boolean, the number of
loop iterations (attempts) performed, the waits slept between consecutive
attempts, and the filesystem afterwards. -/
structure UploadResult where
  success : Bool
  attempts : Nat
  waits : List Nat
  fs : FS
  deriving DecidableEq

/-- The retry loop of `_upload_with_retries`, with `rem` iterations left and
`attempt` the 0-based index of the current one.  Each iteration: a missing
file returns failure at once; a file without scan data is deleted and the
task counts as handled; otherwise `_upload_to_box` (abstracted as the oracle
`upload`) is attempted, and on failure the loop sleeps
`retry_delay * (attempt + 1)` before the next attempt — except after the
last one (`attempt < max_retries - 1` in the source, i.e. `rem > 1` here). -/
def uploadLoop (retryDelay : Nat) (path : Str) (upload : Nat → Bool) :
    Nat → Nat → FS → UploadResult
  | 0, _, fs => ⟨false, 0, [], fs⟩
  | rem + 1, attempt, fs =>
    if (fsLookup fs path).isNone then ⟨false, 1, [], fs⟩
    else if hasScanData fs path = false then ⟨true, 1, [], fsRemove fs path⟩
    else if upload attempt then ⟨true, 1, [], fs⟩
    else
      match rem with
      | 0 => ⟨false, 1, [], fs⟩
      | r + 1 =>
        let res := uploadLoop retryDelay path upload (r + 1) (attempt + 1) fs
        ⟨res.success, res.attempts + 1, retryDelay * (attempt + 1) :: res.waits, res.fs⟩

/-- `BarcodeScanner._upload_with_retries` over `max_retries` attempts. -/
def uploadWithRetries (maxRetries retryDelay : Nat) (path : Str)
    (upload : Nat → Bool) (fs : FS) : UploadResult :=
  uploadLoop retryDelay path upload maxRetries 0 fs

/-- The Box side of one `_upload_to_box` call: whether the client is
available, the outcome of listing the target folder (`none` models the
listing raising), and whether the physical `upload_stream` call succeeds. -/
structure BoxEnv where
  clientAvailable : Bool
  listResult : Option (List Str)
  uploadOk : Bool
  deriving DecidableEq

/-- `BarcodeScanner._upload_to_box`: fail when the file is missing or the
client is unavailable; list the folder and succeed without uploading when an
item with the file's name is already present; otherwise perform the physical
upload.  Returns the success flag paired with whether the physical upload
was invoked. -/
def uploadToBox (fs : FS) (path : Str) (env : BoxEnv) : Bool × Bool :=
  if (fsLookup fs path).isNone then (false, false)
  else if env.clientAvailable = false then (false, false)
  else
    match env.listResult with
    | some items =>
      if pyBasename path ∈ items then (true, false)
      else (env.uploadOk, true)
    | none => (env.uploadOk, true)

/-- A scanner state whose canonical log file is unreadable. -/
def corruptState : ScannerState :=
  { fs := [("scanned_barcodes_2025-01-01.xlsx".data, Sheet.bad)],
    excelPath := "scanned_barcodes_2025-01-01.xlsx".data,
    scanCount := 4, uploadQueue := [] }

/-- A sample corruption timestamp tag. -/
def tsTagSample : Str := "20250101_120000".data

/-- A sample barcode. -/
def sampleBarcode : Str := "ABC123".data

/-- A sample row timestamp. -/
def sampleNow : Str := "2025-01-01 12:00:00".data

/-- A scanner state holding a well-formed header-only current log. -/
def freshState : ScannerState :=
  { fs := [("scanned_barcodes_2025-01-01.xlsx".data, Sheet.wb [headerRow])],
    excelPath := "scanned_barcodes_2025-01-01.xlsx".data,
    scanCount := 0, uploadQueue := [] }

/-- Two sample append calls. -/
def sampleInputs : List (Str × Str × Str) :=
  [(sampleBarcode, statusSuccess, sampleNow), (['X', 'Y', 'Z'], statusInvalid, sampleNow)]

/-- Canonical path of the day the current log was created. -/
def pathA : Str := "scanned_barcodes_2025-01-01.xlsx".data

/-- Yesterday's canonical path at rotation time. -/
def pathB : Str := "scanned_barcodes_2025-01-02.xlsx".data

/-- Today's canonical path at rotation time. -/
def pathC : Str := "scanned_barcodes_2025-01-03.xlsx".data

/-- A sample data row. -/
def rowA : Row := (sampleBarcode, sampleNow, statusSuccess)

/-- A second sample data row. -/
def rowB : Row := (['X', 'Y', 'Z'], sampleNow, statusInvalid)

/-- Rotation state for the C2 counterexample, zero-data half: the current log
is empty and a leftover artifact occupies yesterday's canonical path. -/
def rotCexEmpty : ScannerState :=
  { fs := [(pathA, Sheet.wb [headerRow]), (pathB, Sheet.wb [headerRow, rowA])],
    excelPath := pathA, scanCount := 0, uploadQueue := [] }

/-- Rotation state for the C2 counterexample, data half: the current log has
one data row, yesterday's path is free, but a stale file with a data row
already occupies today's canonical path. -/
def rotCexStale : ScannerState :=
  { fs := [(pathA, Sheet.wb [headerRow, rowA]), (pathC, Sheet.wb [headerRow, rowB])],
    excelPath := pathA, scanCount := 1, uploadQueue := [] }

/-- Rotation state for the witness: a clean filesystem holding only the
current log with one data row. -/
def rotWitState : ScannerState :=
  { fs := [(pathA, Sheet.wb [headerRow, rowA])],
    excelPath := pathA, scanCount := 1, uploadQueue := [] }

/-- The filesystem of the upload witnesses: one sealed artifact with a data
row at yesterday's canonical path. -/
def uploadFS : FS := [(pathB, Sheet.wb [headerRow, rowA])]

/-- A Box environment that already lists the artifact's name remotely. -/
def boxEnvExisting : BoxEnv :=
  { clientAvailable := true,
    listResult := some [pathB, "other.xlsx".data],
    uploadOk := false }

/-- A filesystem holding one unreadable sealed artifact. -/
def unreadableFS : FS := [(pathB, Sheet.bad)]

/-! ### Helper lemmas -/

theorem length_dropWhile_le (p : Char → Bool) (l : Str) :
    (l.dropWhile p).length ≤ l.length := by
  induction l with
  | nil => simp
  | cons c rest ih =>
    by_cases h : p c = true
    · simp only [List.dropWhile_cons, h, if_true]
      exact Nat.le_trans ih (Nat.le_succ _)
    · simp [List.dropWhile_cons, h]

theorem pyStrip_length_le (s : Str) : (pyStrip s).length ≤ s.length := by
  unfold pyStrip
  calc (((s.dropWhile pyIsSpace).reverse.dropWhile pyIsSpace).reverse).length
      = ((s.dropWhile pyIsSpace).reverse.dropWhile pyIsSpace).length := by
        simp
    _ ≤ (s.dropWhile pyIsSpace).reverse.length := length_dropWhile_le _ _
    _ = (s.dropWhile pyIsSpace).length := by simp
    _ ≤ s.length := length_dropWhile_le _ _

theorem validateBarcode_eq_false_of_short (b : Str) (h : b.length < 3) :
    validateBarcode b = false := by
  unfold validateBarcode
  have hle : (pyStrip b).length ≤ b.length := pyStrip_length_le b
  have h3 : (pyStrip b).length < 3 := Nat.lt_of_le_of_lt hle h
  by_cases h0 : b = [] ∨ (pyStrip b).length = 0
  · rw [if_pos h0]
  · rw [if_neg h0, if_pos h3]

theorem charKey_ne_enterKey (k : Str) (h : k.length = 1 ∨ k = spaceKey) :
    k ≠ enterKey := by
  rcases h with h | h
  · intro he
    rw [he] at h
    exact absurd h (by decide)
  · rw [h]
    decide

theorem fsLookup_fsRemove (fs : FS) (p q : Str) :
    fsLookup (fsRemove fs p) q = if p = q then none else fsLookup fs q := by
  induction fs with
  | nil => by_cases h : p = q <;> simp [fsRemove, fsLookup, h]
  | cons hd tl ih =>
    obtain ⟨r, f⟩ := hd
    by_cases hrp : r = p <;> by_cases hpq : p = q <;>
      simp_all [fsRemove, fsLookup]

theorem fsLookup_fsInsert (fs : FS) (p q : Str) (f : Sheet) :
    fsLookup (fsInsert fs p f) q = if p = q then some f else fsLookup fs q := by
  by_cases h : p = q <;> simp [fsInsert, fsLookup, fsLookup_fsRemove, h]

theorem onBarcodeInput_enter (s : TokState) (now : Nat)
    (hrun : s.running = true) (hbuf : s.buffer ≠ []) :
    onBarcodeInput ⟨enterKey, true⟩ now s =
      { s with
        log := s.log ++ [(finalizeBarcode s.buffer,
          if validateBarcode (finalizeBarcode s.buffer) then statusSuccess
          else statusInvalid)],
        buffer := [], lastInputTime := none } := by
  simp [onBarcodeInput, hrun, hbuf]

theorem onBarcodeInput_char (s : TokState) (now : Nat) (ev : KeyEvent)
    (hrun : s.running = true) (hdown : ev.isDown = true)
    (hk : ev.name.length = 1 ∨ ev.name = spaceKey) :
    onBarcodeInput ev now s =
      if 100 < (s.buffer ++ [ev.name]).length then
        { s with buffer := [], lastInputTime := none }
      else
        { s with buffer := s.buffer ++ [ev.name], lastInputTime := some now } := by
  have hne := charKey_ne_enterKey ev.name hk
  simp [onBarcodeInput, hrun, hdown, hne, hk]

theorem onBarcodeInput_buffer_le (ev : KeyEvent) (now : Nat) (s : TokState)
    (h : s.buffer.length ≤ 100) :
    (onBarcodeInput ev now s).buffer.length ≤ 100 := by
  by_cases hg : (!s.running || !ev.isDown) = true
  · simpa [onBarcodeInput, hg] using h
  · by_cases hent : ev.name = enterKey
    · by_cases hbuf : s.buffer = []
      · simp [onBarcodeInput, hg, hent, hbuf]
      · simp [onBarcodeInput, hg, hent, hbuf]
    · by_cases hk : ev.name.length = 1 ∨ ev.name = spaceKey
      · simp [onBarcodeInput, hg, hent, hk]
        split
        · simp
        · next hle =>
          simp only [TokState.buffer, List.length_append, List.length_cons,
            List.length_nil]
          omega
      · simpa [onBarcodeInput, hg, hent, hk] using h

theorem runEvents_buffer_le (evs : List (KeyEvent × Nat)) :
    ∀ s : TokState, s.buffer.length ≤ 100 →
      (runEvents evs s).buffer.length ≤ 100 := by
  induction evs with
  | nil => intro s h; exact h
  | cons e rest ih =>
    intro s h
    exact ih (onBarcodeInput e.1 e.2 s) (onBarcodeInput_buffer_le e.1 e.2 s h)

theorem runEvents_charKeys (evs : List (KeyEvent × Nat)) :
    ∀ s : TokState, s.running = true →
      (∀ p ∈ evs, p.1.isDown = true ∧ (p.1.name.length = 1 ∨ p.1.name = spaceKey)) →
      s.buffer.length + evs.length ≤ 100 →
      (runEvents evs s).buffer = s.buffer ++ evs.map (fun p => p.1.name) ∧
      (runEvents evs s).log = s.log ∧
      (runEvents evs s).running = true := by
  induction evs with
  | nil =>
    intro s hrun _ _
    exact ⟨by simp [runEvents], rfl, hrun⟩
  | cons e rest ih =>
    intro s hrun hsh hlen
    have he := hsh e (by simp)
    have hnotover : ¬ 100 < (s.buffer ++ [e.1.name]).length := by
      simp only [List.length_append, List.length_cons, List.length_nil]
      simp only [List.length_cons] at hlen
      omega
    have hstep : onBarcodeInput e.1 e.2 s =
        { s with buffer := s.buffer ++ [e.1.name], lastInputTime := some e.2 } := by
      rw [onBarcodeInput_char s e.2 e.1 hrun he.1 he.2, if_neg hnotover]
    have hrun' : (onBarcodeInput e.1 e.2 s).running = true := by
      rw [hstep]
      exact hrun
    have hbufstep : (onBarcodeInput e.1 e.2 s).buffer = s.buffer ++ [e.1.name] := by
      rw [hstep]
    have hlogstep : (onBarcodeInput e.1 e.2 s).log = s.log := by
      rw [hstep]
    have hlen' : (onBarcodeInput e.1 e.2 s).buffer.length + rest.length ≤ 100 := by
      rw [hbufstep]
      simp only [List.length_append, List.length_cons, List.length_nil]
      simp only [List.length_cons] at hlen
      omega
    have hrest := ih (onBarcodeInput e.1 e.2 s) hrun'
      (fun p hp => hsh p (by simp [hp])) hlen'
    have hrw : runEvents (e :: rest) s = runEvents rest (onBarcodeInput e.1 e.2 s) := rfl
    rw [hrw]
    refine ⟨?_, ?_, hrest.2.2⟩
    · rw [hrest.1, hbufstep]
      simp
    · rw [hrest.2.1, hlogstep]

/-! ### Claim theorems -/

/-- C1, as stated, is false on the code: `_on_barcode_input` joins the
buffered key names first and only then replaces the substring `"space"`, so
the single-character keys `s p a c e X Y Z` followed by `"enter"` log the
barcode `"XYZ"`, while mapping each buffered reserved `"space"` key to a
space and concatenating (the claim's formula, `specBarcodeOfKeys`) yields
`"spaceXYZ"`. -/
theorem tokenizer_concat_cex :
    cexEvents = cexKeys.map (fun k => (⟨k, true⟩, 0)) ++ [(⟨enterKey, true⟩, 0)] ∧
    (∀ k ∈ cexKeys, k.length = 1) ∧
    (runEvents cexEvents initTokState).log = [(['X', 'Y', 'Z'], statusSuccess)] ∧
    specBarcodeOfKeys cexKeys = ['s', 'p', 'a', 'c', 'e', 'X', 'Y', 'Z'] ∧
    (['X', 'Y', 'Z'] : Str) ≠ ['s', 'p', 'a', 'c', 'e', 'X', 'Y', 'Z'] := by
  refine ⟨rfl, by decide, by decide, by decide, by decide⟩

/-- C1 (amended): for every sequence of buffered key events (single-character
keys or the reserved `"space"` key, at most 100 of them) followed by an
`"enter"` key-down, the barcode written to the log equals the concatenation
of the buffered key names in order received with every occurrence of the
substring `"space"` in the concatenation replaced by a literal space, then
stripped of leading and trailing whitespace; the buffer is cleared. -/
theorem tokenizer_concat_amended (evs : List (KeyEvent × Nat)) (tEnter : Nat)
    (s : TokState) (hrun : s.running = true) (hbuf : s.buffer = [])
    (hsh : ∀ p ∈ evs, p.1.isDown = true ∧ (p.1.name.length = 1 ∨ p.1.name = spaceKey))
    (hne : evs ≠ []) (hlen : evs.length ≤ 100) :
    (runEvents (evs ++ [(⟨enterKey, true⟩, tEnter)]) s).log =
      s.log ++ [(finalizeBarcode (evs.map (fun p => p.1.name)),
        if validateBarcode (finalizeBarcode (evs.map (fun p => p.1.name)))
        then statusSuccess else statusInvalid)] ∧
    (runEvents (evs ++ [(⟨enterKey, true⟩, tEnter)]) s).buffer = [] := by
  have hacc := runEvents_charKeys evs s hrun hsh (by simp [hbuf]; omega)
  have hsplit : runEvents (evs ++ [(⟨enterKey, true⟩, tEnter)]) s
      = onBarcodeInput ⟨enterKey, true⟩ tEnter (runEvents evs s) := by
    simp [runEvents]
  have hbuf1 : (runEvents evs s).buffer = evs.map (fun p => p.1.name) := by
    rw [hacc.1, hbuf]
    simp
  have hne1 : (runEvents evs s).buffer ≠ [] := by
    rw [hbuf1]
    simpa using hne
  rw [hsplit, onBarcodeInput_enter (runEvents evs s) tEnter hacc.2.2 hne1]
  simp [hbuf1, hacc.2.1]

/-- Witness for `tokenizer_concat_amended` at the concrete event sequence
`s p a c e X Y Z enter`. -/
theorem tokenizer_concat_amended_witness :
    (runEvents (cexCharEvents ++ [(⟨enterKey, true⟩, 0)]) initTokState).log =
      initTokState.log ++ [(finalizeBarcode (cexCharEvents.map (fun p => p.1.name)),
        if validateBarcode (finalizeBarcode (cexCharEvents.map (fun p => p.1.name)))
        then statusSuccess else statusInvalid)] ∧
    (runEvents (cexCharEvents ++ [(⟨enterKey, true⟩, 0)]) initTokState).buffer = [] :=
  tokenizer_concat_amended cexCharEvents 0 initTokState (by decide) (by decide)
    (by decide) (by decide) (by decide)

/-- C6: a candidate barcode finalized on `"enter"` whose length (after the
trailing strip of `finalizeBarcode`) is less than 3 — the empty string
included — is still written to the log, with status INVALID rather than
SUCCESS; the entry is not dropped. -/
theorem enter_short_logs_invalid (s : TokState) (now : Nat)
    (hrun : s.running = true) (hbuf : s.buffer ≠ [])
    (hshort : (finalizeBarcode s.buffer).length < 3) :
    (onBarcodeInput ⟨enterKey, true⟩ now s).log
      = s.log ++ [(finalizeBarcode s.buffer, statusInvalid)] ∧
    statusInvalid ≠ statusSuccess := by
  refine ⟨?_, by decide⟩
  rw [onBarcodeInput_enter s now hrun hbuf]
  simp [validateBarcode_eq_false_of_short _ hshort]

/-- Witness for `enter_short_logs_invalid` at the one-character buffer `a`. -/
theorem enter_short_logs_invalid_witness :
    (finalizeBarcode shortBufState.buffer).length < 3 ∧
    ((onBarcodeInput ⟨enterKey, true⟩ 1 shortBufState).log
        = shortBufState.log ++ [(finalizeBarcode shortBufState.buffer, statusInvalid)] ∧
      statusInvalid ≠ statusSuccess) :=
  ⟨by decide, enter_short_logs_invalid shortBufState 1 (by decide) (by decide) (by decide)⟩

/-- C7: when the buffer is non-empty and the time since the last keystroke
exceeds the configured timeout, `_check_barcode_timeout` logs the raw joined
buffer contents with status TIMEOUT (a status different from SUCCESS), clears
the buffer and the last-input time, and a subsequent character keystroke
starts a fresh one-key buffer. -/
theorem timeout_logs_and_clears (barcodeTimeout now t : Nat) (s : TokState)
    (hrun : s.running = true) (hbuf : s.buffer ≠ [])
    (hlast : s.lastInputTime = some t) (hexp : now - t > barcodeTimeout) :
    (checkBarcodeTimeout barcodeTimeout now s).log
      = s.log ++ [(s.buffer.flatten, statusTimeout)] ∧
    (checkBarcodeTimeout barcodeTimeout now s).buffer = [] ∧
    (checkBarcodeTimeout barcodeTimeout now s).lastInputTime = none ∧
    statusTimeout ≠ statusSuccess ∧
    ∀ (k : Str) (t2 : Nat), (k.length = 1 ∨ k = spaceKey) →
      (onBarcodeInput ⟨k, true⟩ t2 (checkBarcodeTimeout barcodeTimeout now s)).buffer
        = [k] := by
  have hstep : checkBarcodeTimeout barcodeTimeout now s =
      { s with log := s.log ++ [(s.buffer.flatten, statusTimeout)],
               buffer := [], lastInputTime := none } := by
    simp [checkBarcodeTimeout, hlast, hbuf, hexp]
  have hrun2 : (checkBarcodeTimeout barcodeTimeout now s).running = true := by
    rw [hstep]
    exact hrun
  have hbuf2 : (checkBarcodeTimeout barcodeTimeout now s).buffer = [] := by
    rw [hstep]
  refine ⟨by rw [hstep], hbuf2, by rw [hstep], by decide, ?_⟩
  intro k t2 hk
  rw [onBarcodeInput_char _ t2 ⟨k, true⟩ hrun2 rfl hk]
  simp [hbuf2]

/-- Witness for `timeout_logs_and_clears`: buffer `a`, last input at time 0,
polled at time 6 with the default 5-second threshold, then the key `b`. -/
theorem timeout_logs_and_clears_witness :
    (checkBarcodeTimeout 5 6 shortBufState).log
      = shortBufState.log ++ [(shortBufState.buffer.flatten, statusTimeout)] ∧
    (checkBarcodeTimeout 5 6 shortBufState).buffer = [] ∧
    (checkBarcodeTimeout 5 6 shortBufState).lastInputTime = none ∧
    statusTimeout ≠ statusSuccess ∧
    (onBarcodeInput ⟨['b'], true⟩ 7 (checkBarcodeTimeout 5 6 shortBufState)).buffer
      = [['b']] := by
  have h := timeout_logs_and_clears 5 6 0 shortBufState (by decide) (by decide)
    (by decide) (by decide)
  exact ⟨h.1, h.2.1, h.2.2.1, h.2.2.2.1, h.2.2.2.2 ['b'] 7 (by decide)⟩

/-- C9: appending a character key that makes the buffer length exceed 100
discards the buffer without writing any record, and consequently the buffer
length after the key-event handler never exceeds 100, for every sequence of
key events starting from a buffer within the limit. -/
theorem buffer_overflow_discards_and_bounds :
    (∀ (s : TokState) (now : Nat) (k : Str),
        s.running = true → (k.length = 1 ∨ k = spaceKey) →
        100 < (s.buffer ++ [k]).length →
        (onBarcodeInput ⟨k, true⟩ now s).buffer = [] ∧
        (onBarcodeInput ⟨k, true⟩ now s).log = s.log) ∧
    (∀ (evs : List (KeyEvent × Nat)) (s : TokState),
        s.buffer.length ≤ 100 → (runEvents evs s).buffer.length ≤ 100) := by
  constructor
  · intro s now k hrun hk hover
    rw [onBarcodeInput_char s now ⟨k, true⟩ hrun rfl hk, if_pos hover]
    exact ⟨rfl, rfl⟩
  · intro evs s h
    exact runEvents_buffer_le evs s h

/-- Witness for `buffer_overflow_discards_and_bounds`: the 101st key clears a
100-key buffer without logging, and the counterexample run stays within the
limit. -/
theorem buffer_overflow_discards_and_bounds_witness :
    ((onBarcodeInput ⟨['b'], true⟩ 0 fullBufState).buffer = [] ∧
      (onBarcodeInput ⟨['b'], true⟩ 0 fullBufState).log = fullBufState.log) ∧
    (runEvents cexEvents initTokState).buffer.length ≤ 100 :=
  ⟨buffer_overflow_discards_and_bounds.1 fullBufState 0 ['b'] (by decide) (by decide)
      (by decide),
    buffer_overflow_discards_and_bounds.2 cexEvents initTokState (by decide)⟩

/-- C3: when `_log_barcode` fails to open or parse the workbook at the
canonical path (modelled by unreadable contents `Sheet.bad`), the existing
file is renamed to the corruption-tagged name, a new file is created at the
canonical path containing exactly the header row plus one RECOVERED record
holding the barcode being appended, and — the embedding being a total
function — no exception reaches the caller of append. -/
theorem append_corruption_recovers (st : ScannerState) (barcode status now tsTag : Str)
    (hbad : fsLookup st.fs st.excelPath = some Sheet.bad)
    (hne : corruptedName st.excelPath tsTag ≠ st.excelPath) :
    fsLookup (logBarcode barcode status now tsTag st).fs
        (corruptedName st.excelPath tsTag) = some Sheet.bad ∧
    fsLookup (logBarcode barcode status now tsTag st).fs st.excelPath
      = some (Sheet.wb [headerRow, (barcode, now, statusRecovered)]) ∧
    (logBarcode barcode status now tsTag st).excelPath = st.excelPath := by
  have hlog : logBarcode barcode status now tsTag st
      = handleFileCorruption barcode now tsTag st := by
    unfold logBarcode
    rw [hbad]
  rw [hlog]
  unfold handleFileCorruption
  rw [hbad]
  refine ⟨?_, ?_, rfl⟩
  · rw [fsLookup_fsInsert, if_neg (fun h => hne h.symm), fsLookup_fsInsert, if_pos rfl]
  · rw [fsLookup_fsInsert, if_pos rfl]

/-- Witness for `append_corruption_recovers` on a concrete unreadable log. -/
theorem append_corruption_recovers_witness :
    fsLookup corruptState.fs corruptState.excelPath = some Sheet.bad ∧
    (fsLookup (logBarcode sampleBarcode statusSuccess sampleNow tsTagSample
        corruptState).fs (corruptedName corruptState.excelPath tsTagSample)
        = some Sheet.bad ∧
      fsLookup (logBarcode sampleBarcode statusSuccess sampleNow tsTagSample
          corruptState).fs corruptState.excelPath
        = some (Sheet.wb [headerRow, (sampleBarcode, sampleNow, statusRecovered)]) ∧
      (logBarcode sampleBarcode statusSuccess sampleNow tsTagSample
          corruptState).excelPath = corruptState.excelPath) :=
  ⟨by decide, append_corruption_recovers corruptState sampleBarcode statusSuccess
      sampleNow tsTagSample (by decide) (by decide)⟩

/-- C8: `N` sequential `_log_barcode` calls on a well-formed log append
exactly `N` records beyond the existing rows, in call order, with none lost,
duplicated or reordered; the canonical path is unchanged. -/
theorem append_n_records (inputs : List (Str × Str × Str)) :
    ∀ (st : ScannerState) (rows : List Row),
      fsLookup st.fs st.excelPath = some (Sheet.wb rows) →
      (appendAll inputs st).excelPath = st.excelPath ∧
      fsLookup (appendAll inputs st).fs st.excelPath
        = some (Sheet.wb (rows ++ inputs.map (fun i => (i.1, i.2.2, i.2.1)))) ∧
      (rows ++ inputs.map (fun i => (i.1, i.2.2, i.2.1))).length
        = rows.length + inputs.length := by
  induction inputs with
  | nil =>
    intro st rows h
    refine ⟨rfl, ?_, by simp⟩
    simpa [appendAll] using h
  | cons i rest ih =>
    intro st rows h
    have hstep : logBarcode i.1 i.2.1 i.2.2 i.2.2 st =
        { st with
          fs := fsInsert st.fs st.excelPath (Sheet.wb (rows ++ [(i.1, i.2.2, i.2.1)])),
          scanCount := st.scanCount + 1 } := by
      unfold logBarcode
      rw [h]
    have hpath : (logBarcode i.1 i.2.1 i.2.2 i.2.2 st).excelPath = st.excelPath := by
      rw [hstep]
    have hlook : fsLookup (logBarcode i.1 i.2.1 i.2.2 i.2.2 st).fs
        (logBarcode i.1 i.2.1 i.2.2 i.2.2 st).excelPath
        = some (Sheet.wb (rows ++ [(i.1, i.2.2, i.2.1)])) := by
      rw [hstep]
      simp only []
      rw [fsLookup_fsInsert, if_pos rfl]
    have hrec := ih (logBarcode i.1 i.2.1 i.2.2 i.2.2 st) (rows ++ [(i.1, i.2.2, i.2.1)])
      hlook
    have hall : appendAll (i :: rest) st
        = appendAll rest (logBarcode i.1 i.2.1 i.2.2 i.2.2 st) := rfl
    rw [hall]
    refine ⟨by rw [hrec.1, hpath], ?_, by simp⟩
    rw [← hpath, hrec.2.1]
    simp

/-- Witness for `append_n_records`: two appends on a fresh header-only log. -/
theorem append_n_records_witness :
    fsLookup freshState.fs freshState.excelPath = some (Sheet.wb [headerRow]) ∧
    ((appendAll sampleInputs freshState).excelPath = freshState.excelPath ∧
      fsLookup (appendAll sampleInputs freshState).fs freshState.excelPath
        = some (Sheet.wb ([headerRow] ++ sampleInputs.map (fun i => (i.1, i.2.2, i.2.1)))) ∧
      ([headerRow] ++ sampleInputs.map (fun i => (i.1, i.2.2, i.2.1))).length
        = [headerRow].length + sampleInputs.length) :=
  ⟨by decide, append_n_records sampleInputs freshState [headerRow] (by decide)⟩

theorem rotateExcel_empty (st : ScannerState) (todayPath yesterdayPath : Str)
    (rows : List Row)
    (hcur : fsLookup st.fs st.excelPath = some (Sheet.wb rows))
    (hempty : rows.length ≤ 1)
    (hyest : fsLookup st.fs yesterdayPath = none) :
    (rotateExcel todayPath yesterdayPath st).uploadQueue = st.uploadQueue ∧
    (st.excelPath ≠ todayPath →
      fsLookup (rotateExcel todayPath yesterdayPath st).fs st.excelPath = none) ∧
    (st.excelPath = todayPath →
      fsLookup (rotateExcel todayPath yesterdayPath st).fs todayPath
        = some (Sheet.wb [headerRow])) := by
  have hnodata : hasScanData st.fs st.excelPath = false := by
    unfold hasScanData
    rw [hcur]
    simp only [gt_iff_lt, decide_eq_false_iff_not, not_lt]
    omega
  have hy1 : fsLookup (fsRemove st.fs st.excelPath) yesterdayPath = none := by
    rw [fsLookup_fsRemove]
    split
    · rfl
    · exact hyest
  have hrot : rotateExcel todayPath yesterdayPath st
      = initializeExcel todayPath { st with fs := fsRemove st.fs st.excelPath } := by
    simp only [rotateExcel, hcur, hnodata, hy1, Option.isSome_some, Option.isSome_none,
      Bool.false_eq_true, if_true, if_false]
  rw [hrot]
  by_cases hpt : st.excelPath = todayPath
  · have htod : fsLookup (fsRemove st.fs st.excelPath) todayPath = none := by
      rw [fsLookup_fsRemove, if_pos hpt]
    have hinit : initializeExcel todayPath ({ st with fs := fsRemove st.fs st.excelPath })
        = { st with
            fs := fsInsert (fsRemove st.fs st.excelPath) todayPath (Sheet.wb [headerRow]),
            excelPath := todayPath, scanCount := 0 } := by
      simp [initializeExcel, htod]
    rw [hinit]
    refine ⟨rfl, fun h => absurd hpt h, fun _ => ?_⟩
    rw [fsLookup_fsInsert, if_pos rfl]
  · have hexc : fsLookup (fsRemove st.fs st.excelPath) st.excelPath = none := by
      rw [fsLookup_fsRemove, if_pos rfl]
    refine ⟨?_, fun _ => ?_, fun h => absurd h hpt⟩
    · unfold initializeExcel
      cases hlook : fsLookup (fsRemove st.fs st.excelPath) todayPath with
      | none => simp [hlook]
      | some f => cases f <;> simp [hlook]
    · unfold initializeExcel
      cases hlook : fsLookup (fsRemove st.fs st.excelPath) todayPath with
      | none =>
        simp only [hlook]
        rw [fsLookup_fsInsert, if_neg (fun h => hpt h.symm)]
        exact hexc
      | some f =>
        cases f <;> simp only [hlook] <;> exact hexc

theorem rotateExcel_data (st : ScannerState) (todayPath yesterdayPath : Str)
    (rows : List Row)
    (hcur : fsLookup st.fs st.excelPath = some (Sheet.wb rows))
    (hdata : 1 < rows.length)
    (hyest : fsLookup st.fs yesterdayPath = none)
    (hty : todayPath ≠ yesterdayPath)
    (htod : todayPath = st.excelPath ∨ fsLookup st.fs todayPath = none) :
    fsLookup (rotateExcel todayPath yesterdayPath st).fs yesterdayPath
      = some (Sheet.wb rows) ∧
    (rotateExcel todayPath yesterdayPath st).uploadQueue
      = st.uploadQueue ++ [yesterdayPath] ∧
    fsLookup (rotateExcel todayPath yesterdayPath st).fs todayPath
      = some (Sheet.wb [headerRow]) ∧
    (rotateExcel todayPath yesterdayPath st).excelPath = todayPath := by
  have hdata' : hasScanData st.fs st.excelPath = true := by
    unfold hasScanData
    rw [hcur]
    simpa using hdata
  have hy1 : fsLookup (fsInsert (fsRemove st.fs st.excelPath) yesterdayPath
      (Sheet.wb rows)) yesterdayPath = some (Sheet.wb rows) := by
    rw [fsLookup_fsInsert, if_pos rfl]
  have hrot : rotateExcel todayPath yesterdayPath st
      = initializeExcel todayPath
          { st with
            fs := fsInsert (fsRemove st.fs st.excelPath) yesterdayPath (Sheet.wb rows),
            uploadQueue := st.uploadQueue ++ [yesterdayPath] } := by
    simp only [rotateExcel, hcur, hdata', hyest, hy1, Option.isSome_some,
      Option.isSome_none, Option.isNone_none, Option.isNone_some,
      Bool.false_eq_true, if_true, if_false]
  have htod' : fsLookup (fsInsert (fsRemove st.fs st.excelPath) yesterdayPath
      (Sheet.wb rows)) todayPath = none := by
    rw [fsLookup_fsInsert, if_neg (fun h => hty h.symm), fsLookup_fsRemove]
    rcases htod with h | h
    · rw [if_pos h.symm]
    · split
      · rfl
      · exact h
  have hinit : rotateExcel todayPath yesterdayPath st
      = { st with
          fs := fsInsert (fsInsert (fsRemove st.fs st.excelPath) yesterdayPath
            (Sheet.wb rows)) todayPath (Sheet.wb [headerRow]),
          excelPath := todayPath, scanCount := 0,
          uploadQueue := st.uploadQueue ++ [yesterdayPath] } := by
    rw [hrot]
    simp [initializeExcel, htod']
  rw [hinit]
  refine ⟨?_, rfl, ?_, rfl⟩
  · rw [fsLookup_fsInsert, if_neg hty, hy1]
  · rw [fsLookup_fsInsert, if_pos rfl]

/-- C2, as stated, is false on the code at two concrete rotation runs.
First: with an empty current log and a leftover file at yesterday's path,
rotation deletes the current log but still enqueues one upload task (the
leftover), contradicting "enqueues no upload task".  Second: with a
one-data-row current log, yesterday's path free, and a stale data file at
today's canonical path, rotation renames and enqueues as claimed but
`_initialize_excel` reuses the stale file, so no fresh header-only
current-day log exists afterwards. -/
theorem rotation_cex :
    (fsLookup rotCexEmpty.fs rotCexEmpty.excelPath = some (Sheet.wb [headerRow]) ∧
      hasScanData rotCexEmpty.fs rotCexEmpty.excelPath = false ∧
      (rotateExcel pathC pathB rotCexEmpty).uploadQueue = [pathB]) ∧
    (fsLookup rotCexStale.fs rotCexStale.excelPath = some (Sheet.wb [headerRow, rowA]) ∧
      fsLookup rotCexStale.fs pathB = none ∧
      (rotateExcel pathC pathB rotCexStale).uploadQueue = [pathB] ∧
      fsLookup (rotateExcel pathC pathB rotCexStale).fs pathC
        = some (Sheet.wb [headerRow, rowB]) ∧
      Sheet.wb [headerRow, rowB] ≠ Sheet.wb [headerRow]) := by
  refine ⟨⟨by decide, by decide, by decide⟩, by decide, by decide, by decide,
    by decide, by decide⟩

/-- C2 (amended): for a rotation run whose current log exists and is a
readable workbook, with yesterday's canonical path unoccupied: if the log has
zero data rows it is deleted (its path is empty afterwards, unless it is
today's canonical path, which is then re-created as a fresh header-only log)
and no upload task is enqueued; if it has at least one data row — and today's
canonical path is either the current file itself or unoccupied, today and
yesterday being distinct — it is renamed to yesterday's canonical path,
exactly one upload task referencing that renamed dated file is enqueued, and
a fresh current-day log containing only the header exists immediately after
rotation.  (The counterexample forces the two provisos: a leftover occupant
of yesterday's path is enqueued even in the zero-data case, and a stale
occupant of today's path would be reused instead of a fresh log.) -/
theorem rotation_amended (st : ScannerState) (todayPath yesterdayPath : Str)
    (rows : List Row)
    (hcur : fsLookup st.fs st.excelPath = some (Sheet.wb rows))
    (hyest : fsLookup st.fs yesterdayPath = none) :
    (rows.length ≤ 1 →
      (rotateExcel todayPath yesterdayPath st).uploadQueue = st.uploadQueue ∧
      (st.excelPath ≠ todayPath →
        fsLookup (rotateExcel todayPath yesterdayPath st).fs st.excelPath = none) ∧
      (st.excelPath = todayPath →
        fsLookup (rotateExcel todayPath yesterdayPath st).fs todayPath
          = some (Sheet.wb [headerRow]))) ∧
    (1 < rows.length → todayPath ≠ yesterdayPath →
      (todayPath = st.excelPath ∨ fsLookup st.fs todayPath = none) →
      fsLookup (rotateExcel todayPath yesterdayPath st).fs yesterdayPath
        = some (Sheet.wb rows) ∧
      (rotateExcel todayPath yesterdayPath st).uploadQueue
        = st.uploadQueue ++ [yesterdayPath] ∧
      fsLookup (rotateExcel todayPath yesterdayPath st).fs todayPath
        = some (Sheet.wb [headerRow]) ∧
      (rotateExcel todayPath yesterdayPath st).excelPath = todayPath) :=
  ⟨fun hempty => rotateExcel_empty st todayPath yesterdayPath rows hcur hempty hyest,
   fun hdata hty htod =>
     rotateExcel_data st todayPath yesterdayPath rows hcur hdata hyest hty htod⟩

/-- Witness for `rotation_amended`: the data branch on a clean filesystem. -/
theorem rotation_amended_witness :
    fsLookup rotWitState.fs rotWitState.excelPath = some (Sheet.wb [headerRow, rowA]) ∧
    fsLookup rotWitState.fs pathB = none ∧
    (fsLookup (rotateExcel pathC pathB rotWitState).fs pathB
        = some (Sheet.wb [headerRow, rowA]) ∧
      (rotateExcel pathC pathB rotWitState).uploadQueue
        = rotWitState.uploadQueue ++ [pathB] ∧
      fsLookup (rotateExcel pathC pathB rotWitState).fs pathC
        = some (Sheet.wb [headerRow]) ∧
      (rotateExcel pathC pathB rotWitState).excelPath = pathC) :=
  ⟨by decide, by decide,
    (rotation_amended rotWitState pathC pathB [headerRow, rowA] (by decide)
        (by decide)).2 (by decide) (by decide) (Or.inr (by decide))⟩

theorem uploadLoop_allFail (retryDelay : Nat) (path : Str) (upload : Nat → Bool)
    (fs : FS) (f : Sheet)
    (hex : fsLookup fs path = some f) (hdata : hasScanData fs path = true)
    (hfail : ∀ i, upload i = false) (rem : Nat) :
    ∀ attempt : Nat,
      uploadLoop retryDelay path upload rem attempt fs
        = ⟨false, rem,
            (List.range' (attempt + 1) (rem - 1)).map (fun k => retryDelay * k), fs⟩ := by
  induction rem with
  | zero =>
    intro attempt
    simp [uploadLoop]
  | succ r ih =>
    intro attempt
    cases r with
    | zero =>
      simp [uploadLoop, hex, hdata, hfail]
    | succ r' =>
      have hstep : uploadLoop retryDelay path upload (r' + 1 + 1) attempt fs
          = ⟨(uploadLoop retryDelay path upload (r' + 1) (attempt + 1) fs).success,
             (uploadLoop retryDelay path upload (r' + 1) (attempt + 1) fs).attempts + 1,
             retryDelay * (attempt + 1)
               :: (uploadLoop retryDelay path upload (r' + 1) (attempt + 1) fs).waits,
             (uploadLoop retryDelay path upload (r' + 1) (attempt + 1) fs).fs⟩ := by
        simp [uploadLoop, hex, hdata, hfail]
      rw [hstep, ih (attempt + 1)]
      have hr : List.range' (attempt + 1) (r' + 1 + 1 - 1)
          = (attempt + 1) :: List.range' (attempt + 1 + 1) (r' + 1 - 1) := rfl
      rw [hr]
      simp

/-- C4: on an existing file with scan data, when every delivery attempt
fails, `_upload_with_retries` makes exactly `max_retries` attempts, sleeping
`retry_delay * attempt_number` between consecutive attempts (the waits are
`retry_delay * 1, …, retry_delay * (max_retries - 1)`: linearly increasing,
none after the last attempt), returns failure, and leaves the filesystem —
the local file included — untouched. -/
theorem upload_all_retries_fail (maxRetries retryDelay : Nat) (path : Str)
    (upload : Nat → Bool) (fs : FS) (f : Sheet)
    (hex : fsLookup fs path = some f) (hdata : hasScanData fs path = true)
    (hfail : ∀ i, upload i = false) :
    uploadWithRetries maxRetries retryDelay path upload fs
      = ⟨false, maxRetries,
          (List.range' 1 (maxRetries - 1)).map (fun k => retryDelay * k), fs⟩ ∧
    fsLookup (uploadWithRetries maxRetries retryDelay path upload fs).fs path
      = some f := by
  have h := uploadLoop_allFail retryDelay path upload fs f hex hdata hfail maxRetries 0
  refine ⟨h, ?_⟩
  rw [uploadWithRetries, h]
  exact hex

/-- Witness for `upload_all_retries_fail`: the default configuration
(3 retries, 5-second base delay) against an always-failing store. -/
theorem upload_all_retries_fail_witness :
    fsLookup uploadFS pathB = some (Sheet.wb [headerRow, rowA]) ∧
    hasScanData uploadFS pathB = true ∧
    (uploadWithRetries 3 5 pathB (fun _ => false) uploadFS
        = ⟨false, 3, [5, 10], uploadFS⟩ ∧
      fsLookup (uploadWithRetries 3 5 pathB (fun _ => false) uploadFS).fs pathB
        = some (Sheet.wb [headerRow, rowA])) := by
  refine ⟨by decide, by decide, ?_⟩
  have h := upload_all_retries_fail 3 5 pathB (fun _ => false) uploadFS
    (Sheet.wb [headerRow, rowA]) (by decide) (by decide) (fun _ => rfl)
  exact ⟨by rw [h.1]; decide, h.2⟩

/-- C5: when listing the remote folder reports an item whose name equals the
file's name, `_upload_to_box` reports success (the task is delivered) without
invoking the physical upload operation. -/
theorem upload_idempotent (fs : FS) (path : Str) (env : BoxEnv) (f : Sheet)
    (items : List Str)
    (hex : fsLookup fs path = some f)
    (hcl : env.clientAvailable = true)
    (hlist : env.listResult = some items)
    (hmem : pyBasename path ∈ items) :
    uploadToBox fs path env = (true, false) := by
  unfold uploadToBox
  rw [hex, hlist]
  simp [hcl, hmem]

/-- Witness for `upload_idempotent`: the artifact's name is already listed in
the remote folder and the physical upload (which would fail) is never
invoked. -/
theorem upload_idempotent_witness :
    fsLookup uploadFS pathB = some (Sheet.wb [headerRow, rowA]) ∧
    boxEnvExisting.listResult = some [pathB, "other.xlsx".data] ∧
    pyBasename pathB ∈ [pathB, "other.xlsx".data] ∧
    uploadToBox uploadFS pathB boxEnvExisting = (true, false) :=
  ⟨by decide, by decide, by decide,
    upload_idempotent uploadFS pathB boxEnvExisting (Sheet.wb [headerRow, rowA])
      [pathB, "other.xlsx".data] (by decide) (by decide) (by decide) (by decide)⟩

/-- C10: a file that exists but cannot be opened or parsed makes
`_has_scan_data` return false, so on its first attempt `_upload_with_retries`
deletes the file and returns success, for every store oracle — the physical
upload is never consulted and the artifact is not retained on disk. -/
theorem upload_unreadable_deleted (maxRetries retryDelay : Nat) (path : Str)
    (upload : Nat → Bool) (fs : FS)
    (hbad : fsLookup fs path = some Sheet.bad)
    (hpos : 1 ≤ maxRetries) :
    hasScanData fs path = false ∧
    uploadWithRetries maxRetries retryDelay path upload fs
      = ⟨true, 1, [], fsRemove fs path⟩ ∧
    fsLookup (uploadWithRetries maxRetries retryDelay path upload fs).fs path
      = none := by
  have hnodata : hasScanData fs path = false := by
    unfold hasScanData
    rw [hbad]
  obtain ⟨r, rfl⟩ : ∃ r, maxRetries = r + 1 :=
    ⟨maxRetries - 1, (Nat.succ_pred_eq_of_pos hpos).symm⟩
  have hrun : uploadWithRetries (r + 1) retryDelay path upload fs
      = ⟨true, 1, [], fsRemove fs path⟩ := by
    rw [uploadWithRetries, uploadLoop.eq_def]
    simp [hbad, hnodata]
  refine ⟨hnodata, hrun, ?_⟩
  rw [hrun]
  rw [fsLookup_fsRemove, if_pos rfl]

/-- Witness for `upload_unreadable_deleted` at the default 3-retry
configuration. -/
theorem upload_unreadable_deleted_witness :
    fsLookup unreadableFS pathB = some Sheet.bad ∧
    (hasScanData unreadableFS pathB = false ∧
      uploadWithRetries 3 5 pathB (fun _ => true) unreadableFS
        = ⟨true, 1, [], fsRemove unreadableFS pathB⟩ ∧
      fsLookup (uploadWithRetries 3 5 pathB (fun _ => true) unreadableFS).fs pathB
        = none) :=
  ⟨by decide, upload_unreadable_deleted 3 5 pathB (fun _ => true) unreadableFS
      (by decide) (by decide)⟩
